import Mathlib

/-!
# Verification of the kiosk-marketplace / satchel repository

Shallow embedding of:
* the Move module `satchel::satchel` (shared container of scrolls with a
  capability-gated add/remove API and a borrow/return discipline), and
* the TypeScript marketplace orchestrator `src/I5/marketplace/src/kiosk.ts`
  (buyer-kiosk lookup, listing lookup by dynamic-field key, royalty
  computation, and the step sequence of the purchase settlement).

Move aborts are modelled as `Except Nat` with the module's abort codes;
TypeScript thrown errors as `Except PurchaseError`.
-/

namespace Satchel

/-- Abort code: no scroll with the specified ID exists in the satchel. -/
def ENoScrollWithThisID : Nat := 0
/-- Abort code: invalid authorization for satchel editing. -/
def ENotYourSatchel : Nat := 1
/-- Abort code: invalid return of a borrowed scroll. -/
def EInvalidReturn : Nat := 2

/-- A magical scroll with a unique object ID, a name and a list of effects
(`satchel::satchel::Scroll`). -/
structure Scroll where
  id : Nat
  name : String
  effects : List String
deriving DecidableEq, Repr

/-- The shared container holding a vector of scrolls
(`satchel::satchel::SharedSatchel`). -/
structure SharedSatchel where
  id : Nat
  scrolls : List Scroll
deriving DecidableEq, Repr

/-- Capability token granting permission to modify one satchel
(`satchel::satchel::SatchelCap`). -/
structure SatchelCap where
  id : Nat
  satchel_id : Nat
deriving DecidableEq, Repr

/-- Hot-potato marker for a borrowed scroll (`satchel::satchel::Borrow`). -/
structure Borrow where
  satchel_id : Nat
  scroll_id : Nat
deriving DecidableEq, Repr

/-- `satchel::satchel::new`: a fresh empty satchel and its capability. -/
def new (satchelId capId : Nat) : SharedSatchel × SatchelCap :=
  ({ id := satchelId, scrolls := [] }, { id := capId, satchel_id := satchelId })

/-- `satchel::satchel::add_scroll`: push a scroll onto the satchel after the
capability-identity check. -/
def add_scroll (self : SharedSatchel) (cap : SatchelCap) (scroll : Scroll) :
    Except Nat SharedSatchel :=
  if self.id = cap.satchel_id then
    .ok { self with scrolls := self.scrolls ++ [scroll] }
  else
    .error ENotYourSatchel

/-- `vector::remove(i)`: the element at index `i` together with the vector
with that element removed; `none` when the index is out of bounds (Move
aborts there, but every call site below first proves the index in range). -/
def listRemoveAt (l : List Scroll) (i : Nat) : Option (Scroll × List Scroll) :=
  match l[i]? with
  | none => none
  | some x => some (x, l.eraseIdx i)

/-- The predicate of `find_index!` in `remove_scroll`/`borrow_scroll`:
`object::id(scroll) == scroll_id`. -/
def scrollHasId (scroll_id : Nat) : Scroll → Bool :=
  fun s => s.id == scroll_id

/-- `satchel::satchel::remove_scroll`: capability check, then locate the
scroll by ID and remove it, returning the updated satchel and the scroll. -/
def remove_scroll (self : SharedSatchel) (cap : SatchelCap) (scroll_id : Nat) :
    Except Nat (SharedSatchel × Scroll) :=
  if self.id = cap.satchel_id then
    match self.scrolls.findIdx? (scrollHasId scroll_id) with
    | none => .error ENoScrollWithThisID
    | some idx =>
      match listRemoveAt self.scrolls idx with
      | none => .error ENoScrollWithThisID
      | some (scroll, rest) => .ok ({ self with scrolls := rest }, scroll)
  else
    .error ENotYourSatchel

/-- `satchel::satchel::borrow_scroll`: locate the scroll by ID (no
capability is taken), remove it and hand out a `Borrow` receipt recording
the satchel and scroll identities. -/
def borrow_scroll (self : SharedSatchel) (scroll_id : Nat) :
    Except Nat (SharedSatchel × Scroll × Borrow) :=
  match self.scrolls.findIdx? (scrollHasId scroll_id) with
  | none => .error ENoScrollWithThisID
  | some idx =>
    match listRemoveAt self.scrolls idx with
    | none => .error ENoScrollWithThisID
    | some (scroll, rest) =>
      .ok ({ self with scrolls := rest }, scroll,
           { satchel_id := self.id, scroll_id := scroll_id })

/-- `satchel::satchel::return_scroll`: check the receipt's satchel identity
and scroll identity, then push the scroll back. -/
def return_scroll (self : SharedSatchel) (scroll : Scroll) (borrow : Borrow) :
    Except Nat SharedSatchel :=
  if self.id = borrow.satchel_id then
    if scroll.id = borrow.scroll_id then
      .ok { self with scrolls := self.scrolls ++ [scroll] }
    else
      .error EInvalidReturn
  else
    .error EInvalidReturn

end Satchel

namespace Marketplace

/-- The record returned by `getKiosk` in `kiosk.ts` (`KioskData`). -/
structure KioskData where
  id : String
  capId : String
  isPersonal : Bool
deriving DecidableEq, Repr

/-- One object owned by an address as seen through `getOwnedObjects`:
its object ID, its Move struct type, and the kiosk ID its `for` field
(reached through the parse path of the matching cap type) points at. -/
structure OwnedObject where
  objectId : String
  structType : String
  capFor : String
deriving DecidableEq, Repr

/-- The struct-type filter string used when `isPersonal` is true. -/
def personalKioskCapType (rulesPackageId : String) : String :=
  rulesPackageId ++ "::personal_kiosk::PersonalKioskCap"

/-- The struct-type filter string used when `isPersonal` is false. -/
def kioskOwnerCapType : String := "0x2::kiosk::KioskOwnerCap"

/-- `getKiosk` from `kiosk.ts`: query the owner's objects filtered by cap
type (limit 1), return `undefined` (`none`) when nothing is found, and
otherwise build a `KioskData`; both branches of the source write
`isPersonal: false` into the result. -/
def getKiosk (owned : List OwnedObject) (rulesPackageId : String)
    (isPersonal : Bool) : Option KioskData :=
  let filterType :=
    if isPersonal then personalKioskCapType rulesPackageId else kioskOwnerCapType
  match (owned.filter (fun o => o.structType == filterType)).head? with
  | none => none
  | some d =>
    if isPersonal then
      some { id := d.capFor, capId := d.objectId, isPersonal := false }
    else
      some { id := d.capFor, capId := d.objectId, isPersonal := false }

/-- The BCS-serialized dynamic-field key of a `0x2::kiosk::Listing`:
asset ID plus exclusivity flag; two keys collide exactly when both
components are equal. -/
structure ListingKey where
  id : String
  is_exclusive : Bool
deriving DecidableEq, Repr

/-- The seller kiosk as the purchase flow reads it: its object ID and its
`Listing` dynamic fields, each mapping a key to the listed price (the
field's value string, parsed by `parseInt`). -/
structure KioskState where
  objectId : String
  listingFields : List (ListingKey × Nat)
deriving DecidableEq, Repr

/-- Fetch of the listing dynamic field by derived ID: find the field whose
key matches the serialized key exactly. -/
def lookupListing (kiosk : KioskState) (key : ListingKey) : Option Nat :=
  (kiosk.listingFields.find? (fun kv => decide (kv.1 = key))).map (fun kv => kv.2)

/-- The royalty rule's config fields (`amount_bp`, `min_amount`) read from
the policy's dynamic field. -/
structure RoyaltyConfig where
  amount_bp : Nat
  min_amount : Nat
deriving DecidableEq, Repr

/-- `Math.max(price * royalties.basisPoints / 10000, parseInt(minAmount))`
from `kiosk.ts`, with JavaScript's exact division modelled in `ℚ`. -/
def royaltiesAmount (price : Nat) (cfg : RoyaltyConfig) : ℚ :=
  max ((price * cfg.amount_bp : ℚ) / 10000) (cfg.min_amount : ℚ)

/-- One move-call (or coin-split) appended to the settlement transaction by
the purchase orchestrator, in source order. -/
inductive Step where
  | splitCoins (amounts : List ℚ)
  | purchaseCall (fromKioskId : String) (swordId : String) (payment : ℚ)
  | borrowVal (personalCapId : String)
  | lockCall (buyerKioskId : String)
  | returnVal (personalCapId : String)
  | proveLockRule (buyerKioskId : String)
  | provePersonalKioskRule (buyerKioskId : String)
  | royaltyPay (amount : ℚ)
  | confirmRequestCall (policyId : String)
deriving DecidableEq, Repr

/-- The errors `purchase` in `kiosk.ts` throws before submitting anything. -/
inductive PurchaseError where
  | needPersonalKiosk
  | listingNotFound (swordId : String) (kioskId : String)
  | royaltyConfigNotFound
deriving DecidableEq, Repr

/-- What a successful run of the orchestrator computed and built: the
buyer-kiosk record, the listing price, the royalty amount, and the ordered
steps of the settlement transaction. -/
structure PurchaseResult where
  buyerKiosk : KioskData
  price : Nat
  royalty : ℚ
  steps : List Step
deriving DecidableEq, Repr

/-- Total amount split off the gas coin across all `splitCoins` steps. -/
def splitTotal (steps : List Step) : ℚ :=
  (steps.map fun s =>
    match s with
    | .splitCoins amounts => amounts.sum
    | _ => 0).sum

/-- `purchase` from `kiosk.ts`, up to submission: resolve the buyer's
personal kiosk, look the listing up under the key serialized with
`is_exclusive: false`, read the royalty config, compute the royalty, and
emit the settlement steps in source order. -/
def purchase (rulesPackageId policyId : String) (buyerOwned : List OwnedObject)
    (fromKiosk : KioskState) (royaltyConfig : Option RoyaltyConfig)
    (swordId : String) : Except PurchaseError PurchaseResult :=
  match getKiosk buyerOwned rulesPackageId true with
  | none => .error .needPersonalKiosk
  | some buyerKiosk =>
    match lookupListing fromKiosk { id := swordId, is_exclusive := false } with
    | none => .error (.listingNotFound swordId fromKiosk.objectId)
    | some price =>
      match royaltyConfig with
      | none => .error .royaltyConfigNotFound
      | some cfg =>
        let ra := royaltiesAmount price cfg
        .ok {
          buyerKiosk := buyerKiosk
          price := price
          royalty := ra
          steps := [
            .splitCoins [(price : ℚ), ra],
            .purchaseCall fromKiosk.objectId swordId (price : ℚ),
            .borrowVal buyerKiosk.capId,
            .lockCall buyerKiosk.id,
            .returnVal buyerKiosk.capId,
            .proveLockRule buyerKiosk.id,
            .provePersonalKioskRule buyerKiosk.id,
            .royaltyPay ra,
            .confirmRequestCall policyId
          ]
        }

end Marketplace

namespace TransferPolicyModel

/-- The rule kinds registered on the sword's transfer policy in this
repository: kiosk-lock, personal-kiosk and royalty. -/
inductive RuleKind where
  | royalty
  | kioskLock
  | personalKiosk
deriving DecidableEq, Repr

/-- Modelled from the spec: the per-asset-type transfer policy holds the
set of active rules; `0x2::transfer_policy` is part of the Sui framework
and its source is not in this repository. -/
structure TransferPolicy where
  rules : Finset RuleKind

/-- Modelled from the spec: the ephemeral proof aggregator created at
purchase time, holding the asset ID, the sale price and the set of
satisfied-rule markers. -/
structure TransferRequest where
  item : String
  paid : Nat
  receipts : Finset RuleKind

/-- Failure of confirmation: some registered rule obligation is
outstanding. -/
inductive ConfirmError where
  | incompleteRule
deriving DecidableEq, Repr

/-- Modelled from the spec: `0x2::transfer_policy::confirm_request` is not
in this repository's sources (the orchestrator only calls it); the spec
says it "succeeds only if satisfied-bit-set == full registered rule set
for that policy; otherwise fails with IncompleteRuleError". -/
def confirmRequest (policy : TransferPolicy) (request : TransferRequest) :
    Except ConfirmError Unit :=
  if request.receipts = policy.rules then .ok () else .error .incompleteRule

end TransferPolicyModel

namespace Marketplace

/-- Recognize a `personal_kiosk::borrow_val` step. -/
def Step.isBorrowStep : Step → Bool
  | .borrowVal _ => true
  | _ => false

/-- Recognize a `personal_kiosk::return_val` step. -/
def Step.isRestoreStep : Step → Bool
  | .returnVal _ => true
  | _ => false

end Marketplace

/-! ## Helper lemmas -/

/-- A list is a permutation of the element at index `i` consed onto the list
with index `i` erased. -/
theorem perm_cons_eraseIdx_of_getElem? {α : Type} (l : List α) (i : Nat) (x : α)
    (h : l[i]? = some x) : l.Perm (x :: l.eraseIdx i) := by
  induction l generalizing i with
  | nil => simp at h
  | cons a t ih =>
    cases i with
    | zero =>
      simp only [List.getElem?_cons_zero, Option.some.injEq] at h
      subst h
      simp
    | succ i =>
      simp only [List.getElem?_cons_succ] at h
      have hp := ih i h
      rw [List.eraseIdx_cons_succ]
      exact (hp.cons a).trans (List.Perm.swap x a _)

/-- If an ID is not among the scroll IDs of a list, the `find_index!`
search of the satchel module finds nothing. -/
theorem findIdx_scrollHasId_eq_none {l : List Satchel.Scroll} {scroll_id : Nat}
    (h : scroll_id ∉ l.map Satchel.Scroll.id) :
    l.findIdx? (Satchel.scrollHasId scroll_id) = none := by
  rw [List.findIdx?_eq_none_iff]
  intro x hx
  have : x.id ≠ scroll_id := by
    intro he
    exact h (List.mem_map.mpr ⟨x, hx, he⟩)
  simp [Satchel.scrollHasId, this]

/-! ## Claim theorems -/

/-- C1: for every policy with registered rule set `R` and every transfer
request, `confirmRequest` succeeds if and only if the request's set of
satisfied-rule markers equals `R` exactly; for any strict subset it fails
with `IncompleteRuleError`, so the request (and the settlement built on
it) does not finalize. -/
theorem C1_confirmRequest_exact_ruleset
    (policy : TransferPolicyModel.TransferPolicy)
    (request : TransferPolicyModel.TransferRequest) :
    ((TransferPolicyModel.confirmRequest policy request).isOk = true ↔
      request.receipts = policy.rules) ∧
    (request.receipts ⊂ policy.rules →
      TransferPolicyModel.confirmRequest policy request =
        .error TransferPolicyModel.ConfirmError.incompleteRule) := by
  constructor
  · unfold TransferPolicyModel.confirmRequest
    split
    · simp_all [Except.isOk, Except.toBool]
    · simp_all [Except.isOk, Except.toBool]
  · intro hsub
    unfold TransferPolicyModel.confirmRequest
    rw [if_neg (ne_of_ssubset hsub)]

/-- Witness for C1 at a concrete policy and request. -/
theorem C1_confirmRequest_witness :
    TransferPolicyModel.confirmRequest
        ⟨{TransferPolicyModel.RuleKind.royalty, TransferPolicyModel.RuleKind.kioskLock}⟩
        ⟨"sword", 100, {TransferPolicyModel.RuleKind.royalty}⟩ =
      .error TransferPolicyModel.ConfirmError.incompleteRule :=
  (C1_confirmRequest_exact_ruleset
      ⟨{TransferPolicyModel.RuleKind.royalty, TransferPolicyModel.RuleKind.kioskLock}⟩
      ⟨"sword", 100, {TransferPolicyModel.RuleKind.royalty}⟩).2 (by decide)

/-- C2 (counterexample): not every mutating entry point of the satchel
performs the capability-identity check — `borrow_scroll` takes no
capability at all, yet succeeds and removes a scroll from the container. -/
theorem C2_counterexample :
    Satchel.borrow_scroll ⟨1, [⟨10, "heal", []⟩]⟩ 10 =
        .ok (⟨1, []⟩, ⟨10, "heal", []⟩, ⟨1, 10⟩) ∧
    (⟨1, []⟩ : Satchel.SharedSatchel) ≠ ⟨1, [⟨10, "heal", []⟩]⟩ :=
  ⟨rfl, by decide⟩

/-- C2 (amended): the add and remove entry points (`add_scroll`,
`remove_scroll`) presented with a capability whose `satchel_id` differs
from the container's identity fail with `ENotYourSatchel` (and, being
failures, produce no new container state); `borrow_scroll` and
`return_scroll` take no capability. -/
theorem C2_cap_mismatch_add_remove
    (self : Satchel.SharedSatchel) (cap : Satchel.SatchelCap)
    (scroll : Satchel.Scroll) (scroll_id : Nat)
    (h : self.id ≠ cap.satchel_id) :
    Satchel.add_scroll self cap scroll = .error Satchel.ENotYourSatchel ∧
    Satchel.remove_scroll self cap scroll_id = .error Satchel.ENotYourSatchel := by
  unfold Satchel.add_scroll Satchel.remove_scroll
  rw [if_neg h, if_neg h]
  exact ⟨rfl, rfl⟩

/-- Witness for C2 (amended) at a concrete mismatched capability. -/
theorem C2_cap_mismatch_witness :
    Satchel.add_scroll ⟨1, []⟩ ⟨5, 2⟩ ⟨10, "heal", []⟩ =
        .error Satchel.ENotYourSatchel ∧
    Satchel.remove_scroll ⟨1, []⟩ ⟨5, 2⟩ 10 = .error Satchel.ENotYourSatchel :=
  C2_cap_mismatch_add_remove ⟨1, []⟩ ⟨5, 2⟩ ⟨10, "heal", []⟩ 10 (by decide)

/-- C4 (counterexample): borrow followed by restore with the exact matching
receipt does not always return the container to a state equal to the
original one — restoring appends at the back, so borrowing a scroll that
was not last reorders the container. -/
theorem C4_counterexample :
    Satchel.borrow_scroll ⟨1, [⟨10, "heal", []⟩, ⟨11, "stam", []⟩]⟩ 10 =
        .ok (⟨1, [⟨11, "stam", []⟩]⟩, ⟨10, "heal", []⟩, ⟨1, 10⟩) ∧
    Satchel.return_scroll ⟨1, [⟨11, "stam", []⟩]⟩ ⟨10, "heal", []⟩ ⟨1, 10⟩ =
        .ok ⟨1, [⟨11, "stam", []⟩, ⟨10, "heal", []⟩]⟩ ∧
    (⟨1, [⟨11, "stam", []⟩, ⟨10, "heal", []⟩]⟩ : Satchel.SharedSatchel) ≠
        ⟨1, [⟨10, "heal", []⟩, ⟨11, "stam", []⟩]⟩ :=
  ⟨rfl, rfl, by decide⟩

/-- C4 (amended): borrow followed by restore with the exact outputs of the
borrow (matching container identity and scroll identity in the receipt)
succeeds and returns the container to a state with the same identity and
the same scrolls up to order (the restored scroll is appended at the
back); restore with a receipt whose container identity or scroll identity
does not match fails with `EInvalidReturn`, and in that failed attempt no
new container state (in particular none containing the scroll) is
produced. -/
theorem C4_borrow_restore_roundtrip
    (self self' : Satchel.SharedSatchel) (scroll : Satchel.Scroll)
    (b : Satchel.Borrow) (scroll_id : Nat)
    (h : Satchel.borrow_scroll self scroll_id = .ok (self', scroll, b)) :
    (∃ s'' : Satchel.SharedSatchel,
        Satchel.return_scroll self' scroll b = .ok s'' ∧
        s''.id = self.id ∧ s''.scrolls.Perm self.scrolls) ∧
    (∀ (t : Satchel.SharedSatchel) (sc : Satchel.Scroll) (br : Satchel.Borrow),
        t.id ≠ br.satchel_id ∨ sc.id ≠ br.scroll_id →
        Satchel.return_scroll t sc br = .error Satchel.EInvalidReturn) := by
  constructor
  · unfold Satchel.borrow_scroll Satchel.listRemoveAt at h
    cases hf : self.scrolls.findIdx? (Satchel.scrollHasId scroll_id) with
    | none => simp only [hf] at h; exact absurd h (by simp)
    | some idx =>
      simp only [hf] at h
      cases hg : self.scrolls[idx]? with
      | none => simp only [hg] at h; exact absurd h (by simp)
      | some x =>
        simp only [hg] at h
        simp only [Except.ok.injEq, Prod.mk.injEq] at h
        obtain ⟨hself', hscroll, hb⟩ := h
        have hpx : Satchel.scrollHasId scroll_id x = true := by
          have := List.findIdx?_of_eq_some hf
          rw [hg] at this
          exact this
        have hid : scroll.id = scroll_id := by
          subst hscroll
          simpa [Satchel.scrollHasId] using hpx
        refine ⟨{ self with scrolls := self.scrolls.eraseIdx idx ++ [scroll] }, ?_, rfl, ?_⟩
        · unfold Satchel.return_scroll
          rw [← hself', ← hb]
          simp [hid]
        · subst hscroll
          exact ((List.perm_append_singleton x _).trans
            (perm_cons_eraseIdx_of_getElem? self.scrolls idx x hg).symm)
  · intro t sc br hmm
    unfold Satchel.return_scroll
    rcases hmm with hm | hm
    · rw [if_neg hm]
    · by_cases h1 : t.id = br.satchel_id
      · rw [if_pos h1, if_neg hm]
      · rw [if_neg h1]

/-- Witness for C4 (amended) at a concrete borrow. -/
theorem C4_borrow_restore_witness :
    (∃ s'' : Satchel.SharedSatchel,
        Satchel.return_scroll ⟨1, []⟩ ⟨10, "heal", []⟩ ⟨1, 10⟩ = .ok s'' ∧
        s''.id = (⟨1, [⟨10, "heal", []⟩]⟩ : Satchel.SharedSatchel).id ∧
        s''.scrolls.Perm (⟨1, [⟨10, "heal", []⟩]⟩ : Satchel.SharedSatchel).scrolls) ∧
    (∀ (t : Satchel.SharedSatchel) (sc : Satchel.Scroll) (br : Satchel.Borrow),
        t.id ≠ br.satchel_id ∨ sc.id ≠ br.scroll_id →
        Satchel.return_scroll t sc br = .error Satchel.EInvalidReturn) :=
  C4_borrow_restore_roundtrip ⟨1, [⟨10, "heal", []⟩]⟩ ⟨1, []⟩ ⟨10, "heal", []⟩
    ⟨1, 10⟩ 10 rfl

/-- C5: with no active listing for the given asset, delist
(`remove_scroll`, with a valid capability) aborts with
`ENoScrollWithThisID` and purchase fails with the could-not-find-listing
error; both are failures, so no successor state (and no settlement) is
produced by the failed call. -/
theorem C5_delist_purchase_not_found
    (self : Satchel.SharedSatchel) (cap : Satchel.SatchelCap) (scroll_id : Nat)
    (rulesPkg policyId : String) (owned : List Marketplace.OwnedObject)
    (kiosk : Marketplace.KioskState) (cfg : Option Marketplace.RoyaltyConfig)
    (swordId : String)
    (hcap : self.id = cap.satchel_id)
    (hno : scroll_id ∉ self.scrolls.map Satchel.Scroll.id)
    (hbk : (Marketplace.getKiosk owned rulesPkg true).isSome = true)
    (hl : Marketplace.lookupListing kiosk ⟨swordId, false⟩ = none) :
    Satchel.remove_scroll self cap scroll_id =
        .error Satchel.ENoScrollWithThisID ∧
    Marketplace.purchase rulesPkg policyId owned kiosk cfg swordId =
        .error (.listingNotFound swordId kiosk.objectId) := by
  constructor
  · unfold Satchel.remove_scroll
    rw [if_pos hcap, findIdx_scrollHasId_eq_none hno]
  · obtain ⟨bk, hbk'⟩ := Option.isSome_iff_exists.mp hbk
    unfold Marketplace.purchase
    simp only [hbk', hl]

/-- Witness for C5 at a concrete empty satchel and unlisted asset. -/
theorem C5_delist_purchase_not_found_witness :
    Satchel.remove_scroll ⟨1, []⟩ ⟨5, 1⟩ 10 =
        .error Satchel.ENoScrollWithThisID ∧
    Marketplace.purchase "RP" "POL"
        [⟨"CAP", "RP::personal_kiosk::PersonalKioskCap", "BK"⟩]
        ⟨"SK", []⟩ none "SW" =
        .error (.listingNotFound "SW"
          (Marketplace.KioskState.objectId ⟨"SK", []⟩)) :=
  C5_delist_purchase_not_found ⟨1, []⟩ ⟨5, 1⟩ 10 "RP" "POL"
    [⟨"CAP", "RP::personal_kiosk::PersonalKioskCap", "BK"⟩]
    ⟨"SK", []⟩ none "SW" rfl (by simp) rfl rfl

/-- C6: with a valid capability and an asset whose ID is not already in
the container, list (`add_scroll`) followed immediately by delist
(`remove_scroll`) of that asset returns the very same asset and restores
the container to its prior contents, leaving no residual entry for it. -/
theorem C6_list_delist_roundtrip
    (self : Satchel.SharedSatchel) (cap : Satchel.SatchelCap)
    (scroll : Satchel.Scroll)
    (hcap : self.id = cap.satchel_id)
    (hfresh : scroll.id ∉ self.scrolls.map Satchel.Scroll.id) :
    (Satchel.add_scroll self cap scroll).bind
        (fun s' => Satchel.remove_scroll s' cap scroll.id) =
      .ok (self, scroll) := by
  unfold Satchel.add_scroll
  rw [if_pos hcap]
  show Satchel.remove_scroll { self with scrolls := self.scrolls ++ [scroll] }
      cap scroll.id = .ok (self, scroll)
  unfold Satchel.remove_scroll
  rw [if_pos hcap]
  have hpre : self.scrolls.findIdx? (Satchel.scrollHasId scroll.id) = none :=
    findIdx_scrollHasId_eq_none hfresh
  have hfind : (self.scrolls ++ [scroll]).findIdx?
      (Satchel.scrollHasId scroll.id) = some self.scrolls.length := by
    rw [List.findIdx?_append, hpre]
    simp [Satchel.scrollHasId]
  simp only [hfind]
  unfold Satchel.listRemoveAt
  rw [List.getElem?_concat_length]
  simp only [List.eraseIdx_append_of_length_le (Nat.le_refl self.scrolls.length),
    Nat.sub_self]
  simp

/-- Witness for C6 at a concrete satchel and fresh scroll. -/
theorem C6_list_delist_roundtrip_witness :
    (Satchel.add_scroll ⟨1, [⟨11, "stam", []⟩]⟩ ⟨5, 1⟩ ⟨10, "heal", []⟩).bind
        (fun s' => Satchel.remove_scroll s' ⟨5, 1⟩ 10) =
      .ok (⟨1, [⟨11, "stam", []⟩]⟩, ⟨10, "heal", []⟩) :=
  C6_list_delist_roundtrip ⟨1, [⟨11, "stam", []⟩]⟩ ⟨5, 1⟩ ⟨10, "heal", []⟩
    rfl (by simp)

/-- C3: on every successful purchase build, the computed royalty is
`max(price * bps / 10000, minFee)` for the price and config read from the
listing and the policy, and the total amount split from gas equals
`price + royalty`; in particular for price 100, 200 basis points and
minimum fee 5 the royalty is 5 and the total payment 105. -/
theorem C3_royalty_and_total_payment
    (rulesPkg policyId : String) (owned : List Marketplace.OwnedObject)
    (kiosk : Marketplace.KioskState) (cfg : Marketplace.RoyaltyConfig)
    (swordId : String) (r : Marketplace.PurchaseResult)
    (h : Marketplace.purchase rulesPkg policyId owned kiosk (some cfg) swordId =
      .ok r) :
    r.royalty = max ((r.price * cfg.amount_bp : ℚ) / 10000) (cfg.min_amount : ℚ) ∧
    Marketplace.splitTotal r.steps = (r.price : ℚ) + r.royalty ∧
    Marketplace.royaltiesAmount 100 ⟨200, 5⟩ = 5 ∧
    (100 : ℚ) + Marketplace.royaltiesAmount 100 ⟨200, 5⟩ = 105 := by
  have hconc : Marketplace.royaltiesAmount 100 ⟨200, 5⟩ = 5 := by
    unfold Marketplace.royaltiesAmount
    norm_num
  unfold Marketplace.purchase at h
  cases hbk : Marketplace.getKiosk owned rulesPkg true with
  | none => simp only [hbk] at h; exact absurd h (by simp)
  | some bk =>
    simp only [hbk] at h
    cases hl : Marketplace.lookupListing kiosk ⟨swordId, false⟩ with
    | none => simp only [hl] at h; exact absurd h (by simp)
    | some price =>
      simp only [hl, Except.ok.injEq] at h
      subst h
      refine ⟨rfl, ?_, hconc, by rw [hconc]; norm_num⟩
      unfold Marketplace.splitTotal
      simp

/-- Witness for C3 at the concrete scenario of the spec (price 100, 2%
royalty, minimum fee 5). -/
theorem C3_royalty_and_total_payment_witness :
    Marketplace.PurchaseResult.royalty
          ⟨⟨"BK", "CAP", false⟩, 100, Marketplace.royaltiesAmount 100 ⟨200, 5⟩,
            [.splitCoins [((100 : Nat) : ℚ), Marketplace.royaltiesAmount 100 ⟨200, 5⟩],
             .purchaseCall "SK" "SW" ((100 : Nat) : ℚ),
             .borrowVal "CAP", .lockCall "BK", .returnVal "CAP",
             .proveLockRule "BK", .provePersonalKioskRule "BK",
             .royaltyPay (Marketplace.royaltiesAmount 100 ⟨200, 5⟩),
             .confirmRequestCall "POL"]⟩ =
        max ((100 * (200 : Nat) : ℚ) / 10000) ((5 : Nat) : ℚ) ∧
    Marketplace.splitTotal
        [.splitCoins [((100 : Nat) : ℚ), Marketplace.royaltiesAmount 100 ⟨200, 5⟩],
         .purchaseCall "SK" "SW" ((100 : Nat) : ℚ),
         .borrowVal "CAP", .lockCall "BK", .returnVal "CAP",
         .proveLockRule "BK", .provePersonalKioskRule "BK",
         .royaltyPay (Marketplace.royaltiesAmount 100 ⟨200, 5⟩),
         .confirmRequestCall "POL"] =
      ((100 : Nat) : ℚ) + Marketplace.royaltiesAmount 100 ⟨200, 5⟩ ∧
    Marketplace.royaltiesAmount 100 ⟨200, 5⟩ = 5 ∧
    (100 : ℚ) + Marketplace.royaltiesAmount 100 ⟨200, 5⟩ = 105 := by
  have := C3_royalty_and_total_payment "RP" "POL"
    [⟨"CAP", "RP::personal_kiosk::PersonalKioskCap", "BK"⟩]
    ⟨"SK", [(⟨"SW", false⟩, 100)]⟩ ⟨200, 5⟩ "SW"
    ⟨⟨"BK", "CAP", false⟩, 100, Marketplace.royaltiesAmount 100 ⟨200, 5⟩,
      [.splitCoins [((100 : Nat) : ℚ), Marketplace.royaltiesAmount 100 ⟨200, 5⟩],
       .purchaseCall "SK" "SW" ((100 : Nat) : ℚ),
       .borrowVal "CAP", .lockCall "BK", .returnVal "CAP",
       .proveLockRule "BK", .provePersonalKioskRule "BK",
       .royaltyPay (Marketplace.royaltiesAmount 100 ⟨200, 5⟩),
       .confirmRequestCall "POL"]⟩ rfl
  exact this

/-- C7: every successful purchase build emits, inside the one settlement
transaction and in this order: the coin split, the `purchase` call, then
the lock of the asset into the buyer's kiosk bracketed by exactly one
`borrow_val` and exactly one `return_val` of the delegated capability,
then one prove step per registered rule (lock, personal-kiosk, royalty
payment), then `confirm_request` last. -/
theorem C7_settlement_step_order
    (rulesPkg policyId : String) (owned : List Marketplace.OwnedObject)
    (kiosk : Marketplace.KioskState) (cfg : Option Marketplace.RoyaltyConfig)
    (swordId : String) (r : Marketplace.PurchaseResult)
    (h : Marketplace.purchase rulesPkg policyId owned kiosk cfg swordId = .ok r) :
    r.steps = [
      Marketplace.Step.splitCoins [(r.price : ℚ), r.royalty],
      Marketplace.Step.purchaseCall kiosk.objectId swordId (r.price : ℚ),
      Marketplace.Step.borrowVal r.buyerKiosk.capId,
      Marketplace.Step.lockCall r.buyerKiosk.id,
      Marketplace.Step.returnVal r.buyerKiosk.capId,
      Marketplace.Step.proveLockRule r.buyerKiosk.id,
      Marketplace.Step.provePersonalKioskRule r.buyerKiosk.id,
      Marketplace.Step.royaltyPay r.royalty,
      Marketplace.Step.confirmRequestCall policyId ] ∧
    r.steps.countP Marketplace.Step.isBorrowStep = 1 ∧
    r.steps.countP Marketplace.Step.isRestoreStep = 1 := by
  unfold Marketplace.purchase at h
  cases hbk : Marketplace.getKiosk owned rulesPkg true with
  | none => simp only [hbk] at h; exact absurd h (by simp)
  | some bk =>
    simp only [hbk] at h
    cases hl : Marketplace.lookupListing kiosk ⟨swordId, false⟩ with
    | none => simp only [hl] at h; exact absurd h (by simp)
    | some price =>
      simp only [hl] at h
      cases cfg with
      | none => exact absurd h (by simp)
      | some c =>
        simp only [Except.ok.injEq] at h
        subst h
        refine ⟨rfl, ?_, ?_⟩ <;>
          simp [List.countP_cons, Marketplace.Step.isBorrowStep,
            Marketplace.Step.isRestoreStep]

/-- Witness for C7 at a concrete successful purchase build. -/
theorem C7_settlement_step_order_witness :
    Marketplace.PurchaseResult.steps
          ⟨⟨"BK", "CAP", false⟩, 100, Marketplace.royaltiesAmount 100 ⟨200, 5⟩,
            [.splitCoins [((100 : Nat) : ℚ), Marketplace.royaltiesAmount 100 ⟨200, 5⟩],
             .purchaseCall "SK" "SW" ((100 : Nat) : ℚ),
             .borrowVal "CAP", .lockCall "BK", .returnVal "CAP",
             .proveLockRule "BK", .provePersonalKioskRule "BK",
             .royaltyPay (Marketplace.royaltiesAmount 100 ⟨200, 5⟩),
             .confirmRequestCall "POL"]⟩ = [
      Marketplace.Step.splitCoins [((100 : Nat) : ℚ),
        Marketplace.royaltiesAmount 100 ⟨200, 5⟩],
      Marketplace.Step.purchaseCall
        (Marketplace.KioskState.objectId ⟨"SK", [(⟨"SW", false⟩, 100)]⟩) "SW"
        ((100 : Nat) : ℚ),
      Marketplace.Step.borrowVal "CAP",
      Marketplace.Step.lockCall "BK",
      Marketplace.Step.returnVal "CAP",
      Marketplace.Step.proveLockRule "BK",
      Marketplace.Step.provePersonalKioskRule "BK",
      Marketplace.Step.royaltyPay (Marketplace.royaltiesAmount 100 ⟨200, 5⟩),
      Marketplace.Step.confirmRequestCall "POL" ] ∧
    List.countP Marketplace.Step.isBorrowStep
        [.splitCoins [((100 : Nat) : ℚ), Marketplace.royaltiesAmount 100 ⟨200, 5⟩],
         .purchaseCall "SK" "SW" ((100 : Nat) : ℚ),
         .borrowVal "CAP", .lockCall "BK", .returnVal "CAP",
         .proveLockRule "BK", .provePersonalKioskRule "BK",
         .royaltyPay (Marketplace.royaltiesAmount 100 ⟨200, 5⟩),
         .confirmRequestCall "POL"] = 1 ∧
    List.countP Marketplace.Step.isRestoreStep
        [.splitCoins [((100 : Nat) : ℚ), Marketplace.royaltiesAmount 100 ⟨200, 5⟩],
         .purchaseCall "SK" "SW" ((100 : Nat) : ℚ),
         .borrowVal "CAP", .lockCall "BK", .returnVal "CAP",
         .proveLockRule "BK", .provePersonalKioskRule "BK",
         .royaltyPay (Marketplace.royaltiesAmount 100 ⟨200, 5⟩),
         .confirmRequestCall "POL"] = 1 := by
  have := C7_settlement_step_order "RP" "POL"
    [⟨"CAP", "RP::personal_kiosk::PersonalKioskCap", "BK"⟩]
    ⟨"SK", [(⟨"SW", false⟩, 100)]⟩ (some ⟨200, 5⟩) "SW"
    ⟨⟨"BK", "CAP", false⟩, 100, Marketplace.royaltiesAmount 100 ⟨200, 5⟩,
      [.splitCoins [((100 : Nat) : ℚ), Marketplace.royaltiesAmount 100 ⟨200, 5⟩],
       .purchaseCall "SK" "SW" ((100 : Nat) : ℚ),
       .borrowVal "CAP", .lockCall "BK", .returnVal "CAP",
       .proveLockRule "BK", .provePersonalKioskRule "BK",
       .royaltyPay (Marketplace.royaltiesAmount 100 ⟨200, 5⟩),
       .confirmRequestCall "POL"]⟩ rfl
  exact this

/-- C8: whenever the buyer-kiosk lookup finds a capability, the returned
record's `isPersonal` field is `false`, for both values of the
`isPersonal` argument (the latent defect flagged by the spec). -/
theorem C8_getKiosk_reports_isPersonal_false
    (owned : List Marketplace.OwnedObject) (rulesPkg : String) (flag : Bool)
    (d : Marketplace.KioskData)
    (h : Marketplace.getKiosk owned rulesPkg flag = some d) :
    d.isPersonal = false := by
  cases flag with
  | true =>
    simp only [Marketplace.getKiosk, if_true] at h
    cases hh : (owned.filter (fun o =>
        o.structType == Marketplace.personalKioskCapType rulesPkg)).head? with
    | none => simp only [hh] at h; exact Option.noConfusion h
    | some o =>
      simp only [hh, Option.some.injEq] at h
      subst h
      rfl
  | false =>
    simp only [Marketplace.getKiosk, Bool.false_eq_true, if_false] at h
    cases hh : (owned.filter (fun o =>
        o.structType == Marketplace.kioskOwnerCapType)).head? with
    | none => simp only [hh] at h; exact Option.noConfusion h
    | some o =>
      simp only [hh, Option.some.injEq] at h
      subst h
      rfl

/-- Witness for C8: the lookup called with `isPersonal = true` still
reports `isPersonal = false`. -/
theorem C8_getKiosk_reports_isPersonal_false_witness :
    Marketplace.KioskData.isPersonal ⟨"BK", "CAP", false⟩ = false :=
  C8_getKiosk_reports_isPersonal_false
    [⟨"CAP", "RP::personal_kiosk::PersonalKioskCap", "BK"⟩] "RP" true
    ⟨"BK", "CAP", false⟩ rfl

/-- C9: the purchase flow serializes the listing dynamic-field key with
`is_exclusive: false`; a listing stored under the exclusive key is
therefore never found, and purchase fails with the could-not-find-listing
error even though an active listing for the asset exists. -/
theorem C9_exclusive_listing_invisible
    (rulesPkg policyId : String) (owned : List Marketplace.OwnedObject)
    (kiosk : Marketplace.KioskState) (cfg : Option Marketplace.RoyaltyConfig)
    (swordId : String) (price : Nat)
    (hbk : (Marketplace.getKiosk owned rulesPkg true).isSome = true)
    (_hx : (⟨swordId, true⟩, price) ∈ kiosk.listingFields)
    (hnf : ∀ kv ∈ kiosk.listingFields,
      kv.1 ≠ (⟨swordId, false⟩ : Marketplace.ListingKey)) :
    Marketplace.purchase rulesPkg policyId owned kiosk cfg swordId =
      .error (.listingNotFound swordId kiosk.objectId) := by
  obtain ⟨bk, hbk'⟩ := Option.isSome_iff_exists.mp hbk
  have hl : Marketplace.lookupListing kiosk ⟨swordId, false⟩ = none := by
    unfold Marketplace.lookupListing
    rw [List.find?_eq_none.mpr ?_]
    · rfl
    · intro kv hkv
      simp [hnf kv hkv]
  unfold Marketplace.purchase
  simp only [hbk', hl]

/-- Witness for C9 at a concrete kiosk holding only an exclusive listing
for the asset. -/
theorem C9_exclusive_listing_invisible_witness :
    Marketplace.purchase "RP" "POL"
        [⟨"CAP", "RP::personal_kiosk::PersonalKioskCap", "BK"⟩]
        ⟨"SK", [(⟨"SW", true⟩, 100)]⟩ none "SW" =
      .error (.listingNotFound "SW"
        (Marketplace.KioskState.objectId ⟨"SK", [(⟨"SW", true⟩, 100)]⟩)) :=
  C9_exclusive_listing_invisible "RP" "POL"
    [⟨"CAP", "RP::personal_kiosk::PersonalKioskCap", "BK"⟩]
    ⟨"SK", [(⟨"SW", true⟩, 100)]⟩ none "SW" 100 rfl (by simp) (by decide)

/-- C10: when the buyer owns no capability object of the requested kind,
`getKiosk` returns `none` rather than failing, and `purchase` then fails
with the you-need-a-personal-kiosk error before any settlement step is
built. -/
theorem C10_no_personal_cap_no_settlement
    (rulesPkg policyId : String) (owned : List Marketplace.OwnedObject)
    (kiosk : Marketplace.KioskState) (cfg : Option Marketplace.RoyaltyConfig)
    (swordId : String)
    (h : ∀ o ∈ owned, o.structType ≠ Marketplace.personalKioskCapType rulesPkg) :
    Marketplace.getKiosk owned rulesPkg true = none ∧
    Marketplace.purchase rulesPkg policyId owned kiosk cfg swordId =
      .error Marketplace.PurchaseError.needPersonalKiosk := by
  have hfil : owned.filter
      (fun o => o.structType == Marketplace.personalKioskCapType rulesPkg) = [] := by
    rw [List.filter_eq_nil_iff]
    intro o ho
    simp [h o ho]
  have hg : Marketplace.getKiosk owned rulesPkg true = none := by
    unfold Marketplace.getKiosk
    simp only [if_true, hfil, List.head?_nil]
  refine ⟨hg, ?_⟩
  unfold Marketplace.purchase
  simp only [hg]

/-- Witness for C10: an owner holding only a plain `KioskOwnerCap`. -/
theorem C10_no_personal_cap_no_settlement_witness :
    Marketplace.getKiosk [⟨"CAP", "0x2::kiosk::KioskOwnerCap", "BK"⟩] "RP" true =
        none ∧
    Marketplace.purchase "RP" "POL" [⟨"CAP", "0x2::kiosk::KioskOwnerCap", "BK"⟩]
        ⟨"SK", []⟩ none "SW" =
      .error Marketplace.PurchaseError.needPersonalKiosk :=
  C10_no_personal_cap_no_settlement "RP" "POL"
    [⟨"CAP", "0x2::kiosk::KioskOwnerCap", "BK"⟩] ⟨"SK", []⟩ none "SW"
    (by decide)
